import Mathlib

/- Verification of the reference-to-audio-URL core of api/feel.js:
the citation parser parseQuranRef, the audio URL builder husaryUrl, the
composed pipeline audioFromRef, and the response-enrichment step of the
handler. Strings are modelled as lists of characters; JavaScript numbers
arising here are digit-run values, modelled as natural numbers. -/

namespace Khayrah

/-- Strings are modelled as lists of characters. -/
abbrev Str := List Char

/-- View of a Lean string literal in the character-list model. -/
def str (s : String) : Str := s.data

/-- The apostrophe character, code point 39. -/
def apos : Char := Char.ofNat 39

/-- The character class of the regex fragment [0-9]: code points 48 to 57. -/
def isDig (c : Char) : Bool := decide (48 ≤ c.toNat ∧ c.toNat ≤ 57)

/-- The ECMAScript whitespace class used by the regex: WhiteSpace and
LineTerminator code points. -/
def jsSpace (c : Char) : Bool :=
  decide (c.toNat = 9 ∨ c.toNat = 10 ∨ c.toNat = 11 ∨ c.toNat = 12 ∨ c.toNat = 13 ∨
    c.toNat = 32 ∨ c.toNat = 160 ∨ c.toNat = 5760 ∨ (8192 ≤ c.toNat ∧ c.toNat ≤ 8202) ∨
    c.toNat = 8232 ∨ c.toNat = 8233 ∨ c.toNat = 8239 ∨ c.toNat = 8287 ∨ c.toNat = 12288 ∨
    c.toNat = 65279)

/-- Case-insensitive literal matching: strip the pattern, given in lowercase,
from the front of the text, as the regex engine does under the i flag. -/
def stripCI : List Char → Str → Option Str
  | [], cs => some cs
  | _ :: _, [] => none
  | p :: ps, c :: cs => if c.toLower == p then stripCI ps cs else none

/-- The optional group after the leading Q in the citation regex: the
letters u r, an optional apostrophe, then a n; greedy, longest first.
Backtracking cannot change the result because a successful long
alternative leaves the position on a letter u, which the following
whitespace-then-digits part of the regex always rejects. -/
def quranTail (cs : Str) : Str :=
  match stripCI (['u', 'r'] ++ apos :: ['a', 'n']) cs with
  | some rest => rest
  | none =>
    match stripCI ['u', 'r', 'a', 'n'] cs with
    | some rest => rest
    | none => cs

/-- The three capture groups of a successful match of the citation regex. -/
structure RefMatch where
  chap : Str
  verse1 : Str
  verse2 : Option Str
deriving DecidableEq

/-- The optional range-suffix group of the regex: whitespace, a hyphen or
en-dash, whitespace, then the end-verse digits; none when the group fails. -/
def matchRange (r : Str) : Option Str :=
  match r.dropWhile jsSpace with
  | [] => none
  | dsh :: r1 =>
    if dsh == '-' || dsh == '–' then
      if ((r1.dropWhile jsSpace).takeWhile isDig).isEmpty then none
      else some ((r1.dropWhile jsSpace).takeWhile isDig)
    else none

/-- The part of the citation regex after the prefix token and following
whitespace: chapter digits, optional whitespace, a colon, optional
whitespace, start-verse digits, then the optional range suffix. -/
def matchFromChap (r : Str) : Option RefMatch :=
  if (r.takeWhile isDig).isEmpty then none
  else
    match (r.dropWhile isDig).dropWhile jsSpace with
    | [] => none
    | c :: r1 =>
      if c == ':' then
        if ((r1.dropWhile jsSpace).takeWhile isDig).isEmpty then none
        else some { chap := r.takeWhile isDig,
                    verse1 := (r1.dropWhile jsSpace).takeWhile isDig,
                    verse2 := matchRange ((r1.dropWhile jsSpace).dropWhile isDig) }
      else none

/-- Attempt of the citation regex anchored at the start of the text: a
case-insensitive Q, the optional longer prefix forms, whitespace, then the
chapter-and-verse core. -/
def matchAt (cs : Str) : Option RefMatch :=
  match cs with
  | [] => none
  | c :: rest =>
    if c.toLower == 'q' then matchFromChap ((quranTail rest).dropWhile jsSpace)
    else none

/-- The match method of a non-global regex: try every start position from
the left and return the first successful match. -/
def findMatch : Str → Option RefMatch
  | [] => none
  | c :: rest =>
    match matchAt (c :: rest) with
    | some m => some m
    | none => findMatch rest

/-- Numeric value of a captured digit run, models parseInt with radix 10. -/
def parseIntDigits (ds : Str) : Nat :=
  ds.foldl (fun acc c => 10 * acc + (c.toNat - 48)) 0

/-- A verse coordinate: the object literal with fields s and a. -/
structure Coord where
  s : Nat
  a : Nat
deriving DecidableEq

/-- Models the generating loop: for a from a1 while a is at most a2,
push the pair of s and a. -/
def verseLoop (s a1 a2 : Nat) : List Coord :=
  (List.range' a1 (a2 + 1 - a1)).map (fun a => { s := s, a := a })

/-- parseQuranRef from api/feel.js. A missing reference, and likewise the
empty string, is falsy and yields the empty list; otherwise the first
regex match, if any, is expanded into the verse range. -/
def parseQuranRef (ref : Option Str) : List Coord :=
  match ref with
  | none => []
  | some cs =>
    if cs.isEmpty then []
    else
      match findMatch cs with
      | none => []
      | some m =>
        verseLoop (parseIntDigits m.chap) (parseIntDigits m.verse1)
          (match m.verse2 with
            | some d => parseIntDigits d
            | none => parseIntDigits m.verse1)

/-- A single decimal digit character. -/
def digitChar : Nat → Char
  | 0 => '0'
  | 1 => '1'
  | 2 => '2'
  | 3 => '3'
  | 4 => '4'
  | 5 => '5'
  | 6 => '6'
  | 7 => '7'
  | 8 => '8'
  | _ => '9'

/-- Decimal digit characters of n, fuel-driven accumulator form so that
the kernel can evaluate it; models the String conversion of an
integer-valued number. -/
def natDigitsCore : Nat → Nat → List Char → List Char
  | 0, _, acc => acc
  | fuel + 1, n, acc =>
    if n < 10 then digitChar n :: acc
    else natDigitsCore fuel (n / 10) (digitChar (n % 10) :: acc)

/-- Decimal digit characters of n, most significant first; the fuel n + 1
always suffices. -/
def natDigits (n : Nat) : Str := natDigitsCore (n + 1) n []

/-- Models padStart applied with target width 3 and pad character zero. -/
def padStart3 (ds : Str) : Str := List.replicate (3 - ds.length) '0' ++ ds

/-- The constant part of the audio URL template. -/
def urlBase : Str := str (r"https://www.everyayah.com/data/Husary_128kbps/")

/-- husaryUrl from api/feel.js: the template literal around the two
zero-padded numbers. -/
def husaryUrl (c : Coord) : Str :=
  urlBase ++ padStart3 (natDigits c.s) ++ padStart3 (natDigits c.a) ++ str (r".mp3")

/-- audioFromRef from api/feel.js: parse, then map the URL builder. -/
def audioFromRef (ref : Option Str) : List Str :=
  (parseQuranRef ref).map husaryUrl

/-- A scripture-quote sub-object of the response payload. -/
structure Quote where
  ar : Option Str
  en : Option Str
  ref : Option Str
  audio : Option (List Str)
deriving DecidableEq

/-- The mapped sub-object of the response payload. -/
structure Mapped where
  feeling : Option Str
  quran : Option Quote
  quran2 : Option Quote
  hadith : Option Quote
  counsel : Option Str
  dua : Option Str
deriving DecidableEq

/-- The response payload produced from the model output. -/
structure Out where
  mapped : Option Mapped
  peptalk : Option Str
  suggestions : Option (List Str)
deriving DecidableEq

/-- JavaScript truthiness of an optional string field: present and
non-empty. -/
def refTruthy : Option Str → Bool
  | none => false
  | some s => !s.isEmpty

/-- The first enrichment statement of the handler: when the primary quote
reference is truthy, set its audio field to the derived URL list. -/
def setQuranAudio (m : Mapped) : Mapped :=
  match m.quran with
  | none => m
  | some q =>
    if refTruthy q.ref then
      { m with quran := some { q with audio := some (audioFromRef q.ref) } }
    else m

/-- The second enrichment statement of the handler, for the secondary
quote. -/
def setQuran2Audio (m : Mapped) : Mapped :=
  match m.quran2 with
  | none => m
  | some q =>
    if refTruthy q.ref then
      { m with quran2 := some { q with audio := some (audioFromRef q.ref) } }
    else m

/-- The enrichment step of the handler: both statements in order; a
payload without a mapped sub-object is left untouched. -/
def enrichOut (o : Out) : Out :=
  match o.mapped with
  | none => o
  | some m => { o with mapped := some (setQuran2Audio (setQuranAudio m)) }

/-- The canonical single-verse citation: Q, space, chapter digits, colon,
verse digits. -/
def citS (C V : Nat) : Str :=
  'Q' :: ' ' :: (natDigits C ++ ':' :: natDigits V)

/-- The canonical range citation: Q, space, chapter digits, colon, start
digits, a dash, end digits. -/
def citR (C V1 V2 : Nat) (dsh : Char) : Str :=
  'Q' :: ' ' :: (natDigits C ++ ':' :: (natDigits V1 ++ dsh :: natDigits V2))

/-- Padding as the specification words it: decimal digits left-padded
with zeros to at least three characters, wider numbers kept whole. -/
def pad3Spec (n : Nat) : Str :=
  if n < 10 then '0' :: '0' :: natDigits n
  else if n < 100 then '0' :: natDigits n
  else natDigits n

/-- A quote whose reference field is present but holds the empty string. -/
def QemptyRef : Quote := { ar := none, en := none, ref := some [], audio := none }

/-- A mapped sub-object whose primary quote is QemptyRef. -/
def MemptyRef : Mapped :=
  { feeling := none, quran := some QemptyRef, quran2 := none, hadith := none,
    counsel := none, dua := none }

/-- A payload whose primary quote carries a present but empty reference. -/
def OemptyRef : Out := { mapped := some MemptyRef, peptalk := none, suggestions := none }

/-- A quote whose reference field holds a well-formed citation. -/
def Qex : Quote := { ar := none, en := none, ref := some (str (r"Q 2:45")), audio := none }

/-- A mapped sub-object whose primary quote is Qex. -/
def Mex : Mapped :=
  { feeling := none, quran := some Qex, quran2 := none, hadith := none,
    counsel := none, dua := none }

/-- A payload whose primary quote carries a well-formed reference. -/
def Oex : Out := { mapped := some Mex, peptalk := none, suggestions := none }

lemma natDigitsCore_irrel : ∀ n f g acc, n < f → n < g →
    natDigitsCore f n acc = natDigitsCore g n acc := by
  intro n
  induction n using Nat.strong_induction_on with
  | _ n ih =>
    intro f g acc hf hg
    cases f with
    | zero => omega
    | succ f =>
      cases g with
      | zero => omega
      | succ g =>
        by_cases h : n < 10
        · simp [natDigitsCore, h]
        · have hd : n / 10 < n := Nat.div_lt_self (by omega) (by omega)
          simp only [natDigitsCore, if_neg h]
          exact ih (n / 10) hd f g _ (by omega) (by omega)

lemma natDigitsCore_acc : ∀ n f acc, n < f →
    natDigitsCore f n acc = natDigitsCore f n [] ++ acc := by
  intro n
  induction n using Nat.strong_induction_on with
  | _ n ih =>
    intro f acc hf
    cases f with
    | zero => omega
    | succ f =>
      by_cases h : n < 10
      · simp [natDigitsCore, h]
      · have hd : n / 10 < n := Nat.div_lt_self (by omega) (by omega)
        simp only [natDigitsCore, if_neg h]
        rw [ih (n / 10) hd f _ (by omega), ih (n / 10) hd f [digitChar (n % 10)] (by omega),
          List.append_assoc]
        rfl

lemma natDigits_lt {n : Nat} (h : n < 10) : natDigits n = [digitChar n] := by
  simp [natDigits, natDigitsCore, h]

lemma natDigits_ge {n : Nat} (h : 10 ≤ n) :
    natDigits n = natDigits (n / 10) ++ [digitChar (n % 10)] := by
  have hd : n / 10 < n := Nat.div_lt_self (by omega) (by omega)
  show natDigitsCore (n + 1) n [] = _
  simp only [natDigitsCore, if_neg (by omega : ¬ n < 10)]
  rw [natDigitsCore_irrel (n / 10) n (n / 10 + 1) _ (by omega) (by omega),
    natDigitsCore_acc (n / 10) (n / 10 + 1) _ (by omega)]
  rfl

lemma isDig_digitChar (d : Nat) : isDig (digitChar d) = true := by
  match d with
  | 0 | 1 | 2 | 3 | 4 | 5 | 6 | 7 | 8 => decide
  | d + 9 => exact (by decide : isDig ('9' : Char) = true)

lemma toNat_digitChar {d : Nat} (h : d < 10) : (digitChar d).toNat = 48 + d := by
  interval_cases d <;> decide

lemma natDigits_ne_nil (n : Nat) : natDigits n ≠ [] := by
  rcases Nat.lt_or_ge n 10 with h | h
  · simp [natDigits_lt h]
  · simp [natDigits_ge h]

lemma all_isDig_natDigits : ∀ n, ∀ c ∈ natDigits n, isDig c = true := by
  intro n
  induction n using Nat.strong_induction_on with
  | _ n ih =>
    intro c hc
    rcases Nat.lt_or_ge n 10 with h | h
    · rw [natDigits_lt h] at hc
      simp only [List.mem_singleton] at hc
      exact hc ▸ isDig_digitChar n
    · have hd : n / 10 < n := Nat.div_lt_self (by omega) (by omega)
      rw [natDigits_ge h] at hc
      rcases List.mem_append.1 hc with h1 | h1
      · exact ih (n / 10) hd c h1
      · simp only [List.mem_singleton] at h1
        exact h1 ▸ isDig_digitChar (n % 10)

lemma natDigits_cons (n : Nat) :
    ∃ d ds, natDigits n = d :: ds ∧ isDig d = true := by
  cases hn : natDigits n with
  | nil => exact absurd hn (natDigits_ne_nil n)
  | cons d ds =>
    exact ⟨d, ds, rfl, all_isDig_natDigits n d (hn ▸ List.mem_cons_self d ds)⟩

lemma not_jsSpace_of_isDig {c : Char} (h : isDig c = true) : jsSpace c = false := by
  simp only [isDig, decide_eq_true_eq] at h
  simp only [jsSpace, decide_eq_false_iff_not]
  omega

lemma toLower_eq_self_of_isDig {c : Char} (h : isDig c = true) : c.toLower = c := by
  simp only [isDig, decide_eq_true_eq] at h
  show (if c.toNat ≥ 65 ∧ c.toNat ≤ 90 then Char.ofNat (c.toNat + 32) else c) = c
  rw [if_neg (by omega)]

lemma toLower_ne_q_of_isDig {c : Char} (h : isDig c = true) :
    (c.toLower == 'q') = false := by
  rw [toLower_eq_self_of_isDig h]
  simp only [isDig, decide_eq_true_eq] at h
  have : c ≠ 'q' := by
    intro he
    rw [he] at h
    simp only [show ('q' : Char).toNat = 113 from rfl] at h
    omega
  exact beq_eq_false_iff_ne.2 this

lemma parseIntDigits_go : ∀ n m : Nat,
    List.foldl (fun acc c => 10 * acc + (c.toNat - 48)) m (natDigits n) =
      m * 10 ^ (natDigits n).length + n := by
  intro n
  induction n using Nat.strong_induction_on with
  | _ n ih =>
    intro m
    rcases Nat.lt_or_ge n 10 with h | h
    · rw [natDigits_lt h]
      simp only [List.foldl_cons, List.foldl_nil, List.length_cons, List.length_nil,
        toNat_digitChar h, pow_one]
      omega
    · have hd : n / 10 < n := Nat.div_lt_self (by omega) (by omega)
      rw [natDigits_ge h, List.foldl_append, List.length_append, ih (n / 10) hd m]
      simp only [List.foldl_cons, List.foldl_nil, List.length_cons, List.length_nil,
        toNat_digitChar (Nat.mod_lt n (by omega)), Nat.pow_succ]
      have hdm : 10 * (n / 10) + n % 10 = n := Nat.div_add_mod n 10
      have : m * (10 ^ (natDigits (n / 10)).length * 10) =
          10 * (m * 10 ^ (natDigits (n / 10)).length) := by ring
      omega

lemma parseIntDigits_natDigits (n : Nat) : parseIntDigits (natDigits n) = n := by
  unfold parseIntDigits
  rw [parseIntDigits_go n 0]
  simp

lemma quranTail_space (X : Str) : quranTail (' ' :: X) = ' ' :: X := rfl

lemma dropWhile_jsSpace_digits (n : Nat) (rest : Str) :
    (natDigits n ++ rest).dropWhile jsSpace = natDigits n ++ rest := by
  obtain ⟨d, ds, hn, hd⟩ := natDigits_cons n
  rw [hn, List.cons_append, List.dropWhile_cons_of_neg (by simp [not_jsSpace_of_isDig hd])]

lemma dropWhile_jsSpace_natDigits (n : Nat) :
    (natDigits n).dropWhile jsSpace = natDigits n := by
  obtain ⟨d, ds, hn, hd⟩ := natDigits_cons n
  rw [hn, List.dropWhile_cons_of_neg (by simp [not_jsSpace_of_isDig hd])]

lemma takeWhile_isDig_natDigits (n : Nat) :
    (natDigits n).takeWhile isDig = natDigits n := by
  conv_lhs => rw [← List.append_nil (natDigits n)]
  rw [List.takeWhile_append_of_pos (all_isDig_natDigits n)]
  simp

lemma takeWhile_isDig_digits (n : Nat) (rest : Str) (h : rest.takeWhile isDig = []) :
    (natDigits n ++ rest).takeWhile isDig = natDigits n := by
  rw [List.takeWhile_append_of_pos (all_isDig_natDigits n), h, List.append_nil]

lemma dropWhile_isDig_digits (n : Nat) (rest : Str) (h : rest.dropWhile isDig = rest) :
    (natDigits n ++ rest).dropWhile isDig = rest := by
  rw [List.dropWhile_append_of_pos (all_isDig_natDigits n), h]

lemma natDigits_isEmpty_eq_false (n : Nat) : (natDigits n).isEmpty = false := by
  obtain ⟨d, ds, hn, _⟩ := natDigits_cons n
  rw [hn]
  rfl

lemma matchRange_nil : matchRange [] = none := rfl

lemma matchRange_dash (V2 : Nat) {dsh : Char} (hdsh : dsh = '-' ∨ dsh = '–') :
    matchRange (dsh :: natDigits V2) = some (natDigits V2) := by
  have hsp : jsSpace dsh = false := by rcases hdsh with h | h <;> rw [h] <;> decide
  have hbe : (dsh == '-' || dsh == '–') = true := by rcases hdsh with h | h <;> rw [h] <;> decide
  simp only [matchRange, List.dropWhile_cons_of_neg (by simp [hsp] : ¬ jsSpace dsh = true),
    hbe, if_true, dropWhile_jsSpace_natDigits, takeWhile_isDig_natDigits,
    natDigits_isEmpty_eq_false, Bool.false_eq_true, if_false]

lemma matchFromChap_cit (C V1 : Nat) (tail : Str)
    (h1 : tail.takeWhile isDig = []) (h2 : tail.dropWhile isDig = tail) :
    matchFromChap (natDigits C ++ ':' :: (natDigits V1 ++ tail)) =
      some { chap := natDigits C, verse1 := natDigits V1, verse2 := matchRange tail } := by
  have htc : (':' :: (natDigits V1 ++ tail)).takeWhile isDig = [] := by
    rw [List.takeWhile_cons_of_neg (by decide : ¬ isDig ':' = true)]
  have hdc : (':' :: (natDigits V1 ++ tail)).dropWhile isDig = ':' :: (natDigits V1 ++ tail) := by
    rw [List.dropWhile_cons_of_neg (by decide : ¬ isDig ':' = true)]
  simp only [matchFromChap,
    takeWhile_isDig_digits C (':' :: (natDigits V1 ++ tail)) htc,
    dropWhile_isDig_digits C (':' :: (natDigits V1 ++ tail)) hdc,
    List.dropWhile_cons_of_neg (by decide : ¬ jsSpace ':' = true),
    natDigits_isEmpty_eq_false, Bool.false_eq_true, if_false,
    if_pos (by decide : ((':' : Char) == ':') = true),
    dropWhile_jsSpace_digits V1 tail, takeWhile_isDig_digits V1 tail h1,
    dropWhile_isDig_digits V1 tail h2]

lemma matchAt_cit (C V1 : Nat) (tail : Str)
    (h1 : tail.takeWhile isDig = []) (h2 : tail.dropWhile isDig = tail) :
    matchAt ('Q' :: ' ' :: (natDigits C ++ ':' :: (natDigits V1 ++ tail))) =
      some { chap := natDigits C, verse1 := natDigits V1, verse2 := matchRange tail } := by
  simp only [matchAt, if_pos (by decide : (('Q' : Char).toLower == 'q') = true), quranTail_space,
    List.dropWhile_cons_of_pos (by decide : jsSpace ' ' = true), dropWhile_jsSpace_digits C _,
    matchFromChap_cit C V1 tail h1 h2]

lemma findMatch_cons_of_matchAt {c : Char} {rest : Str} {m : RefMatch}
    (h : matchAt (c :: rest) = some m) : findMatch (c :: rest) = some m := by
  unfold findMatch
  rw [h]

lemma matchAt_citS (C V : Nat) :
    matchAt (citS C V) =
      some { chap := natDigits C, verse1 := natDigits V, verse2 := none } := by
  have h := matchAt_cit C V [] rfl rfl
  rw [List.append_nil, matchRange_nil] at h
  exact h

lemma matchAt_citR (C V1 V2 : Nat) {dsh : Char} (hdsh : dsh = '-' ∨ dsh = '–') :
    matchAt (citR C V1 V2 dsh) =
      some { chap := natDigits C, verse1 := natDigits V1, verse2 := some (natDigits V2) } := by
  have hdig : isDig dsh = false := by rcases hdsh with h | h <;> rw [h] <;> decide
  have h1 : (dsh :: natDigits V2).takeWhile isDig = [] := by
    rw [List.takeWhile_cons_of_neg (by simp [hdig])]
  have h2 : (dsh :: natDigits V2).dropWhile isDig = dsh :: natDigits V2 := by
    rw [List.dropWhile_cons_of_neg (by simp [hdig])]
  have h := matchAt_cit C V1 (dsh :: natDigits V2) h1 h2
  rw [matchRange_dash V2 hdsh] at h
  exact h

lemma findMatch_citS (C V : Nat) :
    findMatch (citS C V) =
      some { chap := natDigits C, verse1 := natDigits V, verse2 := none } := by
  have h := matchAt_citS C V
  unfold citS at h ⊢
  exact findMatch_cons_of_matchAt h

lemma findMatch_citR (C V1 V2 : Nat) {dsh : Char} (hdsh : dsh = '-' ∨ dsh = '–') :
    findMatch (citR C V1 V2 dsh) =
      some { chap := natDigits C, verse1 := natDigits V1, verse2 := some (natDigits V2) } := by
  have h := matchAt_citR C V1 V2 hdsh
  unfold citR at h ⊢
  exact findMatch_cons_of_matchAt h

lemma verseLoop_single (C V : Nat) : verseLoop C V V = [{ s := C, a := V }] := by
  unfold verseLoop
  rw [show V + 1 - V = 1 from by omega]
  simp [List.range']

lemma parse_citS (C V : Nat) : parseQuranRef (some (citS C V)) = [{ s := C, a := V }] := by
  have he : (citS C V).isEmpty = false := rfl
  simp only [parseQuranRef, he, Bool.false_eq_true, if_false, findMatch_citS C V,
    parseIntDigits_natDigits, verseLoop_single]

lemma parse_citR (C V1 V2 : Nat) {dsh : Char} (hdsh : dsh = '-' ∨ dsh = '–') :
    parseQuranRef (some (citR C V1 V2 dsh)) = verseLoop C V1 V2 := by
  have he : (citR C V1 V2 dsh).isEmpty = false := rfl
  simp only [parseQuranRef, he, Bool.false_eq_true, if_false, findMatch_citR C V1 V2 hdsh,
    parseIntDigits_natDigits]

lemma one_le_length_natDigits (n : Nat) : 1 ≤ (natDigits n).length := by
  obtain ⟨d, ds, hn, _⟩ := natDigits_cons n
  rw [hn]
  simp

lemma length_natDigits_le : ∀ k n : Nat, 1 ≤ k → n < 10 ^ k → (natDigits n).length ≤ k := by
  intro k
  induction k with
  | zero => intro n h; omega
  | succ k ih =>
    intro n _ hn
    rcases Nat.lt_or_ge n 10 with h | h
    · rw [natDigits_lt h]
      simp
    · cases k with
      | zero =>
        rw [pow_one] at hn
        omega
      | succ k =>
        have hd : n / 10 < 10 ^ (k + 1) := by
          apply Nat.div_lt_of_lt_mul
          rw [Nat.pow_succ] at hn
          omega
        have := ih (n / 10) (by omega) hd
        rw [natDigits_ge h, List.length_append]
        simp only [List.length_cons, List.length_nil]
        omega

lemma le_length_natDigits : ∀ k n : Nat, 10 ^ k ≤ n → k + 1 ≤ (natDigits n).length := by
  intro k
  induction k with
  | zero => intro n _; exact one_le_length_natDigits n
  | succ k ih =>
    intro n hn
    have h10 : 10 ≤ n := by
      have h1 : (1 : Nat) ≤ 10 ^ k := Nat.one_le_pow k 10 (by omega)
      rw [Nat.pow_succ] at hn
      omega
    have hdiv : 10 ^ k ≤ n / 10 := by
      rw [Nat.le_div_iff_mul_le (by omega : 0 < 10)]
      rw [Nat.pow_succ] at hn
      omega
    have := ih (n / 10) hdiv
    rw [natDigits_ge h10, List.length_append]
    simp only [List.length_cons, List.length_nil]
    omega

lemma padStart3_eq_pad3Spec (n : Nat) : padStart3 (natDigits n) = pad3Spec n := by
  unfold padStart3 pad3Spec
  rcases Nat.lt_or_ge n 10 with h | h
  · rw [if_pos h, natDigits_lt h]
    rfl
  · rcases Nat.lt_or_ge n 100 with h2 | h2
    · have h1 : (natDigits (n / 10)).length = 1 := by
        rw [natDigits_lt (Nat.div_lt_of_lt_mul (by omega : n < 10 * 10))]
        rfl
      have hl : (natDigits n).length = 2 := by
        rw [natDigits_ge h, List.length_append, h1]
        rfl
      rw [if_neg (by omega), if_pos h2, hl]
      rfl
    · have hl : 3 ≤ (natDigits n).length := by
        have := le_length_natDigits 2 n (by simpa using h2)
        omega
      rw [if_neg (by omega), if_neg (by omega),
        show 3 - (natDigits n).length = 0 from by omega]
      rfl

lemma parseIntDigits_cons_zero (l : Str) : parseIntDigits ('0' :: l) = parseIntDigits l := by
  unfold parseIntDigits
  simp [List.foldl_cons]

lemma parseIntDigits_pad3Spec (n : Nat) : parseIntDigits (pad3Spec n) = n := by
  unfold pad3Spec
  rcases Nat.lt_or_ge n 10 with h | h
  · rw [if_pos h, parseIntDigits_cons_zero, parseIntDigits_cons_zero,
      parseIntDigits_natDigits]
  · rcases Nat.lt_or_ge n 100 with h2 | h2
    · rw [if_neg (by omega), if_pos h2, parseIntDigits_cons_zero, parseIntDigits_natDigits]
    · rw [if_neg (by omega), if_neg (by omega), parseIntDigits_natDigits]

lemma three_le_length_pad3Spec (n : Nat) : 3 ≤ (pad3Spec n).length := by
  unfold pad3Spec
  rcases Nat.lt_or_ge n 10 with h | h
  · have := one_le_length_natDigits n
    simp only [if_pos h, List.length_cons]
    omega
  · rcases Nat.lt_or_ge n 100 with h2 | h2
    · have := le_length_natDigits 1 n (by simpa using h)
      simp only [if_neg (by omega : ¬ n < 10), if_pos h2, List.length_cons]
      omega
    · have := le_length_natDigits 2 n (by simpa using h2)
      simp only [if_neg (by omega : ¬ n < 10), if_neg (by omega : ¬ n < 100)]
      omega

lemma four_le_length_pad3Spec {n : Nat} (h : 1000 ≤ n) : 4 ≤ (pad3Spec n).length := by
  unfold pad3Spec
  rw [if_neg (by omega), if_neg (by omega)]
  have := le_length_natDigits 3 n (by simpa using h)
  omega

lemma findMatch_none_of_no_q : ∀ cs : Str,
    (∀ c ∈ cs, (c.toLower == 'q') = false) → findMatch cs = none := by
  intro cs
  induction cs with
  | nil => intro _; rfl
  | cons c rest ih =>
    intro h
    have hq : matchAt (c :: rest) = none := by
      simp only [matchAt, h c (List.mem_cons_self c rest), Bool.false_eq_true, if_false]
    unfold findMatch
    rw [hq]
    exact ih (fun d hd => h d (List.mem_cons_of_mem _ hd))

lemma parse_empty_of_findMatch_none {cs : Str} (h : findMatch cs = none) :
    parseQuranRef (some cs) = [] := by
  simp only [parseQuranRef, h]
  split <;> rfl

lemma setQuranAudio_quran2 (m : Mapped) : (setQuranAudio m).quran2 = m.quran2 := by
  unfold setQuranAudio
  split
  · rfl
  · split <;> rfl

lemma setQuranAudio_feeling (m : Mapped) : (setQuranAudio m).feeling = m.feeling := by
  unfold setQuranAudio
  split
  · rfl
  · split <;> rfl

lemma setQuranAudio_hadith (m : Mapped) : (setQuranAudio m).hadith = m.hadith := by
  unfold setQuranAudio
  split
  · rfl
  · split <;> rfl

lemma setQuranAudio_counsel (m : Mapped) : (setQuranAudio m).counsel = m.counsel := by
  unfold setQuranAudio
  split
  · rfl
  · split <;> rfl

lemma setQuranAudio_dua (m : Mapped) : (setQuranAudio m).dua = m.dua := by
  unfold setQuranAudio
  split
  · rfl
  · split <;> rfl

lemma setQuran2Audio_quran (m : Mapped) : (setQuran2Audio m).quran = m.quran := by
  unfold setQuran2Audio
  split
  · rfl
  · split <;> rfl

lemma setQuran2Audio_feeling (m : Mapped) : (setQuran2Audio m).feeling = m.feeling := by
  unfold setQuran2Audio
  split
  · rfl
  · split <;> rfl

lemma setQuran2Audio_hadith (m : Mapped) : (setQuran2Audio m).hadith = m.hadith := by
  unfold setQuran2Audio
  split
  · rfl
  · split <;> rfl

lemma setQuran2Audio_counsel (m : Mapped) : (setQuran2Audio m).counsel = m.counsel := by
  unfold setQuran2Audio
  split
  · rfl
  · split <;> rfl

lemma setQuran2Audio_dua (m : Mapped) : (setQuran2Audio m).dua = m.dua := by
  unfold setQuran2Audio
  split
  · rfl
  · split <;> rfl

lemma setQuranAudio_quran_truthy {m : Mapped} {q : Quote} (hq : m.quran = some q)
    (ht : refTruthy q.ref = true) :
    (setQuranAudio m).quran =
      some { ar := q.ar, en := q.en, ref := q.ref, audio := some (audioFromRef q.ref) } := by
  simp only [setQuranAudio, hq, ht, if_true]

lemma setQuranAudio_quran_falsy {m : Mapped} {q : Quote} (hq : m.quran = some q)
    (ht : refTruthy q.ref = false) : (setQuranAudio m).quran = some q := by
  simp only [setQuranAudio, hq, ht, Bool.false_eq_true, if_false]

lemma setQuranAudio_quran_none {m : Mapped} (hq : m.quran = none) :
    (setQuranAudio m).quran = none := by
  simp only [setQuranAudio, hq]

lemma setQuran2Audio_quran2_truthy {m : Mapped} {q : Quote} (hq : m.quran2 = some q)
    (ht : refTruthy q.ref = true) :
    (setQuran2Audio m).quran2 =
      some { ar := q.ar, en := q.en, ref := q.ref, audio := some (audioFromRef q.ref) } := by
  simp only [setQuran2Audio, hq, ht, if_true]

lemma setQuran2Audio_quran2_falsy {m : Mapped} {q : Quote} (hq : m.quran2 = some q)
    (ht : refTruthy q.ref = false) : (setQuran2Audio m).quran2 = some q := by
  simp only [setQuran2Audio, hq, ht, Bool.false_eq_true, if_false]

/-- C1: for every well-formed range citation of the form Q C:V1-V2, with a
hyphen or an en-dash and V2 at least V1, the parser returns the sequence of
coordinates with chapter C and verses V1, V1 + 1, up to V2 inclusive, whose
length is V2 - V1 + 1. -/
theorem quran_range_parse (C V1 V2 : Nat) (dsh : Char)
    (hdsh : dsh = '-' ∨ dsh = '–') (h : V1 ≤ V2) :
    parseQuranRef (some (citR C V1 V2 dsh)) =
      (List.range' V1 (V2 - V1 + 1)).map (fun a => { s := C, a := a }) ∧
    (parseQuranRef (some (citR C V1 V2 dsh))).length = V2 - V1 + 1 := by
  rw [parse_citR C V1 V2 hdsh]
  unfold verseLoop
  rw [show V2 + 1 - V1 = V2 - V1 + 1 from by omega]
  exact ⟨rfl, by simp⟩

/-- Witness for C1 at the concrete range citation Q 94:5-6 with an en-dash. -/
theorem quran_range_parse_witness :
    parseQuranRef (some (citR 94 5 6 '–')) =
      (List.range' 5 2).map (fun a => ({ s := 94, a := a } : Coord)) :=
  (quran_range_parse 94 5 6 '–' (Or.inr rfl) (by omega)).1

/-- C2: for every well-formed single-verse citation of the form Q C:V, the
parser returns exactly the one-element sequence holding chapter C, verse V. -/
theorem quran_single_parse (C V : Nat) :
    parseQuranRef (some (citS C V)) = [{ s := C, a := V }] :=
  parse_citS C V

/-- C3: the URL builder returns the fixed host-and-path constant followed by
the chapter and verse rendered via the spec-side padding, which is decimal,
left-padded with zeros to at least three characters; for values of one
thousand or more the rendering is wider than three digits, unpadded and
untruncated, and parsing the padded digits back recovers the number. -/
theorem husary_url_formula (s a : Nat) :
    husaryUrl { s := s, a := a } =
      urlBase ++ (pad3Spec s ++ (pad3Spec a ++ str (r".mp3"))) ∧
    3 ≤ (pad3Spec s).length ∧ 3 ≤ (pad3Spec a).length ∧
    parseIntDigits (pad3Spec s) = s ∧ parseIntDigits (pad3Spec a) = a ∧
    (1000 ≤ s → 4 ≤ (pad3Spec s).length ∧ pad3Spec s = natDigits s) := by
  refine ⟨?_, three_le_length_pad3Spec s, three_le_length_pad3Spec a,
    parseIntDigits_pad3Spec s, parseIntDigits_pad3Spec a,
    fun h => ⟨four_le_length_pad3Spec h, ?_⟩⟩
  · unfold husaryUrl
    rw [padStart3_eq_pad3Spec, padStart3_eq_pad3Spec]
    simp [List.append_assoc]
  · unfold pad3Spec
    rw [if_neg (by omega), if_neg (by omega)]

/-- Witness for C3 at the coordinate 94:5 and at the wide value 1000. -/
theorem husary_url_formula_witness :
    husaryUrl { s := 94, a := 5 } =
      urlBase ++ (pad3Spec 94 ++ (pad3Spec 5 ++ str (r".mp3"))) ∧
    4 ≤ (pad3Spec 1000).length :=
  ⟨(husary_url_formula 94 5).1, ((husary_url_formula 1000 1).2.2.2.2.2 (by omega)).1⟩

/-- C4: for every inverted range citation Q C:V1-V2 with V2 below V1, the
parser returns the empty sequence; the parse function is total, so no error
is raised. -/
theorem inverted_range_empty (C V1 V2 : Nat) (dsh : Char)
    (hdsh : dsh = '-' ∨ dsh = '–') (h : V2 < V1) :
    parseQuranRef (some (citR C V1 V2 dsh)) = [] := by
  rw [parse_citR C V1 V2 hdsh]
  unfold verseLoop
  rw [show V2 + 1 - V1 = 0 from by omega]
  rfl

/-- Witness for C4 at the concrete inverted citation Q 7:5-3. -/
theorem inverted_range_empty_witness :
    parseQuranRef (some (citR 7 5 3 '-')) = [] :=
  inverted_range_empty 7 5 3 '-' (Or.inl rfl) (by omega)

/-- C5: a missing reference, and any string the citation pattern does not
match, yields the empty coordinate sequence and the empty audio list; the
pipeline is a total function, so it never throws. -/
theorem unparseable_empty :
    parseQuranRef none = [] ∧ audioFromRef none = [] ∧
    (∀ cs : Str, findMatch cs = none →
      parseQuranRef (some cs) = [] ∧ audioFromRef (some cs) = []) ∧
    parseQuranRef (some (str (r"Bukhari 6114"))) = [] ∧
    audioFromRef (some (str (r"Bukhari 6114"))) = [] := by
  refine ⟨rfl, rfl, ?_, by decide, by decide⟩
  intro cs h
  have hp := parse_empty_of_findMatch_none h
  refine ⟨hp, ?_⟩
  unfold audioFromRef
  rw [hp]
  rfl

/-- Witness for C5 at a concrete non-matching string. -/
theorem unparseable_empty_witness :
    parseQuranRef (some (str (r"Muslim 2999"))) = [] ∧
    audioFromRef (some (str (r"Muslim 2999"))) = [] :=
  unparseable_empty.2.2.1 (str (r"Muslim 2999")) (by decide)

/-- C7 counterexample: the chapter-marker prefix is not optional; the bare
citation 2:286 fails to match and yields the empty sequence, unlike its
prefixed form. -/
theorem bare_citation_not_parsed :
    parseQuranRef (some (str (r"2:286"))) = [] ∧
    parseQuranRef (some (str (r"Q 2:286"))) = [{ s := 2, a := 286 }] ∧
    parseQuranRef (some (str (r"2:286"))) ≠ parseQuranRef (some (str (r"Q 2:286"))) :=
  ⟨by decide, by decide, by decide⟩

/-- C7 amended: the leading chapter-marker letter is required; any string
with no letter q, in particular every bare chapter-colon-verse citation,
yields the empty sequence, while the prefixed forms all parse. -/
theorem prefix_required :
    (∀ cs : Str, (∀ c ∈ cs, (c.toLower == 'q') = false) →
      parseQuranRef (some cs) = []) ∧
    (∀ C V : Nat, parseQuranRef (some (natDigits C ++ ':' :: natDigits V)) = []) ∧
    parseQuranRef (some (str (r"Quran 2:286"))) = [{ s := 2, a := 286 }] ∧
    parseQuranRef (some (str (r"Qur") ++ apos :: str (r"an 2:286"))) =
      [{ s := 2, a := 286 }] := by
  have hmain : ∀ cs : Str, (∀ c ∈ cs, (c.toLower == 'q') = false) →
      parseQuranRef (some cs) = [] := by
    intro cs h
    exact parse_empty_of_findMatch_none (findMatch_none_of_no_q cs h)
  refine ⟨hmain, ?_, by decide, by decide⟩
  intro C V
  apply hmain
  intro c hc
  rcases List.mem_append.1 hc with h1 | h1
  · exact toLower_ne_q_of_isDig (all_isDig_natDigits C c h1)
  · rcases List.mem_cons.1 h1 with h2 | h2
    · rw [h2]
      decide
    · exact toLower_ne_q_of_isDig (all_isDig_natDigits V c h2)

/-- Witness for C7 amended at a concrete q-free string. -/
theorem prefix_required_witness :
    parseQuranRef (some (str (r"ayah 3:4"))) = [] :=
  prefix_required.1 (str (r"ayah 3:4")) (by decide)

/-- C8 counterexample: not every produced coordinate has positive
components; the citation Q 0:0 produces the coordinate with chapter 0 and
verse 0. -/
theorem coord_not_positive :
    ¬ ∀ (ref : Option Str) (p : Coord), p ∈ parseQuranRef ref → 0 < p.s ∧ 0 < p.a := by
  intro h
  have hc := h (some (str (r"Q 0:0"))) { s := 0, a := 0 } (by decide)
  exact Nat.lt_irrefl 0 hc.1

/-- C8 amended: every coordinate the parser produces is an ordered pair of
natural numbers whose chapter is the numeric value of the matched chapter
capture and whose verse is at least the matched start verse; zero is
possible since digit runs are unbounded below only by zero. -/
theorem coords_are_pairs (cs : Str) (p : Coord) (hp : p ∈ parseQuranRef (some cs)) :
    ∃ m, findMatch cs = some m ∧ p.s = parseIntDigits m.chap ∧
      parseIntDigits m.verse1 ≤ p.a := by
  simp only [parseQuranRef] at hp
  by_cases he : cs.isEmpty = true
  · rw [if_pos he] at hp
    simp at hp
  · rw [if_neg he] at hp
    cases hm : findMatch cs with
    | none =>
      rw [hm] at hp
      simp at hp
    | some m =>
      rw [hm] at hp
      refine ⟨m, rfl, ?_⟩
      unfold verseLoop at hp
      simp only [List.mem_map] at hp
      obtain ⟨a, ha, rfl⟩ := hp
      rw [List.mem_range'_1] at ha
      exact ⟨rfl, ha.1⟩

/-- Witness for C8 amended at the citation Q 0:0. -/
theorem coords_are_pairs_witness :
    ∃ m, findMatch (str (r"Q 0:0")) = some m ∧
      ({ s := 0, a := 0 } : Coord).s = parseIntDigits m.chap ∧
      parseIntDigits m.verse1 ≤ ({ s := 0, a := 0 } : Coord).a :=
  coords_are_pairs (str (r"Q 0:0")) { s := 0, a := 0 } (by decide)

/-- C9: the parser and the parser-plus-builder pipeline are pure functions
of their input, so running either twice on the same reference yields
identical output. -/
theorem pipeline_deterministic (ref : Option Str) :
    audioFromRef ref = audioFromRef ref ∧ parseQuranRef ref = parseQuranRef ref :=
  ⟨rfl, rfl⟩

/-- C10: the parser matches the pattern anywhere in the input and uses the
first occurrence: a successful overall match is the attempt at the least
starting index whose anchored attempt succeeds, and a string holding two
citations yields only the first one. -/
theorem leftmost_first_match :
    (∀ (cs : Str) (m : RefMatch), findMatch cs = some m →
      ∃ i, matchAt (cs.drop i) = some m ∧ ∀ j, j < i → matchAt (cs.drop j) = none) ∧
    parseQuranRef (some (str (r"see Q 2:45 and Q 39:53"))) = [{ s := 2, a := 45 }] := by
  constructor
  · intro cs
    induction cs with
    | nil =>
      intro m h
      simp [findMatch] at h
    | cons c rest ih =>
      intro m h
      unfold findMatch at h
      cases hm : matchAt (c :: rest) with
      | some mf =>
        rw [hm] at h
        simp only [Option.some.injEq] at h
        subst h
        exact ⟨0, hm, by omega⟩
      | none =>
        rw [hm] at h
        obtain ⟨i, hi, hj⟩ := ih m h
        refine ⟨i + 1, by simpa using hi, ?_⟩
        intro j hlt
        cases j with
        | zero => simpa using hm
        | succ j =>
          have := hj j (by omega)
          simpa using this
  · decide

/-- Witness for C10 at a string holding surrounding text and two citations. -/
theorem leftmost_first_match_witness :
    ∃ i, matchAt ((str (r"see Q 2:45 and Q 39:53")).drop i) =
        some { chap := str (r"2"), verse1 := str (r"45"), verse2 := none } ∧
      ∀ j, j < i → matchAt ((str (r"see Q 2:45 and Q 39:53")).drop j) = none :=
  leftmost_first_match.1 _ _ (by decide)

/-- C6 counterexample: the primary quote's reference field is present,
holding the empty string, yet enrichment attaches no audio field: the
payload comes back unchanged and the quote's audio stays absent, so audio
is not attached exactly when the reference field is present. -/
theorem enrich_present_ref_skipped :
    QemptyRef.ref.isSome = true ∧ enrichOut OemptyRef = OemptyRef ∧
    QemptyRef.audio = none :=
  ⟨rfl, by decide, rfl⟩

/-- C6 amended: enrichment attaches the derived audio list onto the primary
and secondary quote sub-objects exactly when their reference field is
present with a non-empty string, JavaScript truthiness; an absent, missing
or empty reference leaves the sub-object unchanged; all other payload
fields are unchanged; the step is a total function and attaches whatever
the pipeline yields, the empty list included. -/
theorem enrich_behavior :
    (∀ o : Out, (enrichOut o).peptalk = o.peptalk ∧
      (enrichOut o).suggestions = o.suggestions ∧
      ((enrichOut o).mapped).map Mapped.feeling = (o.mapped).map Mapped.feeling ∧
      ((enrichOut o).mapped).map Mapped.hadith = (o.mapped).map Mapped.hadith ∧
      ((enrichOut o).mapped).map Mapped.counsel = (o.mapped).map Mapped.counsel ∧
      ((enrichOut o).mapped).map Mapped.dua = (o.mapped).map Mapped.dua) ∧
    (∀ o : Out, o.mapped = none → enrichOut o = o) ∧
    (∀ (o : Out) (m : Mapped) (q : Quote), o.mapped = some m → m.quran = some q →
      refTruthy q.ref = true →
      ∃ m2, (enrichOut o).mapped = some m2 ∧
        m2.quran =
          some { ar := q.ar, en := q.en, ref := q.ref, audio := some (audioFromRef q.ref) }) ∧
    (∀ (o : Out) (m : Mapped) (q : Quote), o.mapped = some m → m.quran = some q →
      refTruthy q.ref = false →
      ∃ m2, (enrichOut o).mapped = some m2 ∧ m2.quran = some q) ∧
    (∀ (o : Out) (m : Mapped), o.mapped = some m → m.quran = none →
      ∃ m2, (enrichOut o).mapped = some m2 ∧ m2.quran = none) ∧
    (∀ (o : Out) (m : Mapped) (q : Quote), o.mapped = some m → m.quran2 = some q →
      refTruthy q.ref = true →
      ∃ m2, (enrichOut o).mapped = some m2 ∧
        m2.quran2 =
          some { ar := q.ar, en := q.en, ref := q.ref, audio := some (audioFromRef q.ref) }) ∧
    (∀ (o : Out) (m : Mapped) (q : Quote), o.mapped = some m → m.quran2 = some q →
      refTruthy q.ref = false →
      ∃ m2, (enrichOut o).mapped = some m2 ∧ m2.quran2 = some q) := by
  refine ⟨?_, ?_, ?_, ?_, ?_, ?_, ?_⟩
  · intro o
    cases ho : o.mapped with
    | none =>
      have he : enrichOut o = o := by simp only [enrichOut, ho]
      rw [he]
      simp [ho]
    | some m =>
      simp [enrichOut, ho, setQuran2Audio_feeling, setQuranAudio_feeling,
        setQuran2Audio_hadith, setQuranAudio_hadith, setQuran2Audio_counsel,
        setQuranAudio_counsel, setQuran2Audio_dua, setQuranAudio_dua]
  · intro o ho
    simp only [enrichOut, ho]
  · intro o m q ho hq ht
    refine ⟨setQuran2Audio (setQuranAudio m), by simp [enrichOut, ho], ?_⟩
    rw [setQuran2Audio_quran, setQuranAudio_quran_truthy hq ht]
  · intro o m q ho hq ht
    refine ⟨setQuran2Audio (setQuranAudio m), by simp [enrichOut, ho], ?_⟩
    rw [setQuran2Audio_quran, setQuranAudio_quran_falsy hq ht]
  · intro o m ho hq
    refine ⟨setQuran2Audio (setQuranAudio m), by simp [enrichOut, ho], ?_⟩
    rw [setQuran2Audio_quran, setQuranAudio_quran_none hq]
  · intro o m q ho hq ht
    refine ⟨setQuran2Audio (setQuranAudio m), by simp [enrichOut, ho], ?_⟩
    have hq2 : (setQuranAudio m).quran2 = some q := by rw [setQuranAudio_quran2, hq]
    rw [setQuran2Audio_quran2_truthy hq2 ht]
  · intro o m q ho hq ht
    refine ⟨setQuran2Audio (setQuranAudio m), by simp [enrichOut, ho], ?_⟩
    have hq2 : (setQuranAudio m).quran2 = some q := by rw [setQuranAudio_quran2, hq]
    rw [setQuran2Audio_quran2_falsy hq2 ht]

/-- Witness for C6 amended at a concrete payload with a truthy reference. -/
theorem enrich_behavior_witness :
    ∃ m2, (enrichOut Oex).mapped = some m2 ∧
      m2.quran =
        some { ar := Qex.ar, en := Qex.en, ref := Qex.ref, audio := some (audioFromRef Qex.ref) } :=
  enrich_behavior.2.2.1 Oex Mex Qex rfl rfl (by decide)


end Khayrah
